import Mathlib

/-!
# Verification of the spreadsheet-ingestion pipeline (`query_agent.py`)

A shallow embedding of the schema-normalization and collection-lifecycle
pipeline of the repository: the name sanitizer `clean_property_name`, the
per-column type inference, the schema builder, the destructive collection
provisioner, the bulk loader, the batch orchestrator
`process_uploaded_files`, the startup purge `delete_existing_collections`,
and the lazily created query-agent session.

External effects are made explicit: a `Store` value stands for the state of
the external document store, an `UploadedFile` carries the outcome of
parsing its bytes (`none` when the reader raises) and a flag telling
whether the store raises while provisioning or loading that file (the
source performs those store calls outside any try/except).
-/

namespace QueryAgent

/-! ## Character-level model of the Python string primitives

The sanitizer works through `str.strip`, `str.lower`,
`str.replace(" ", "_")`, `re.sub(r"[^a-zA-Z0-9_]", "_", ·)` and
`re.match(r"^[a-zA-Z_]", ·)`; the regexes are pure ASCII, so the model
mirrors them character by character over `Char.toNat`.
-/

/-- Whitespace stripped by `str.strip` (ASCII fragment: space, tab,
newline, carriage return, vertical tab, form feed). -/
def isPySpace (c : Char) : Bool :=
  c.toNat = 32 || c.toNat = 9 || c.toNat = 10 || c.toNat = 13 ||
    c.toNat = 11 || c.toNat = 12

/-- Model of `str.strip`: drop leading and trailing whitespace. -/
def stripChars (cs : List Char) : List Char :=
  ((cs.dropWhile isPySpace).reverse.dropWhile isPySpace).reverse

/-- Letters `A`–`Z`. -/
def isUpperChar (c : Char) : Bool :=
  65 ≤ c.toNat && c.toNat ≤ 90

/-- Letters `a`–`z`. -/
def isLowerChar (c : Char) : Bool :=
  97 ≤ c.toNat && c.toNat ≤ 122

/-- Digits `0`–`9`. -/
def isDigitChar (c : Char) : Bool :=
  48 ≤ c.toNat && c.toNat ≤ 57

/-- A character in the regex class `[a-zA-Z0-9_]` of
`re.sub(r"[^a-zA-Z0-9_]", "_", name)`. -/
def isWordChar (c : Char) : Bool :=
  isUpperChar c || isLowerChar c || isDigitChar c || c = '_'

/-- A first character accepted by `re.match(r"^[a-zA-Z_]", name)`. -/
def isValidStart (c : Char) : Bool :=
  isUpperChar c || isLowerChar c || c = '_'

/-- Test that `re.match(r"^[a-zA-Z_]", name)` succeeds: the string is nonempty and
its first character is a letter or underscore. -/
def startsOk (cs : List Char) : Bool :=
  match cs with
  | [] => false
  | c :: _ => isValidStart c

/-- The final step of the sanitizer:
`if not re.match(r"^[a-zA-Z_]", name): name = "_" + name`
(on the empty string the match fails, so the result is `"_"`). -/
def fixStart (cs : List Char) : List Char :=
  if startsOk cs then cs else '_' :: cs

/-- Model of `str.lower` on one character (ASCII case mapping). -/
def lowerChar (c : Char) : Char :=
  if isUpperChar c then Char.ofNat (c.toNat + 32) else c

/-- Model of `str.replace(" ", "_")` on one character. -/
def underscoreSpace (c : Char) : Char :=
  if c = ' ' then '_' else c

/-- The per-character effect of `.lower().replace(" ", "_")` followed by
`re.sub(r"[^a-zA-Z0-9_]", "_", ·)`. -/
def cleanChar (c : Char) : Char :=
  if isWordChar (underscoreSpace (lowerChar c)) then underscoreSpace (lowerChar c)
  else '_'

/-- Sanitizer `clean_property_name` (source lines 40–45): strip, lower-case, map
spaces to `_`, map every character outside `[a-zA-Z0-9_]` to `_`, and
prepend `_` when the result does not start with a letter or underscore
(in particular the empty string becomes `"_"`). -/
def clean_property_name (name : String) : String :=
  String.mk (fixStart ((stripChars name.data).map cleanChar))

/-- The regular expression `^[A-Za-z_][A-Za-z0-9_]*$` as a Boolean test. -/
def matchesIdent (s : String) : Bool :=
  startsOk s.data && (s.data.drop 1).all isWordChar

/-! ### Character lemmas -/

/-- Characters that survive one pass of the sanitizer: lower-case letters,
digits, underscore. -/
def goodChar (c : Char) : Bool :=
  isLowerChar c || isDigitChar c || c = '_'

theorem toNat_ofNat_add32 (n : Nat) (h1 : 65 ≤ n) (h2 : n ≤ 90) :
    (Char.ofNat (n + 32)).toNat = n + 32 := by
  interval_cases n <;> decide

theorem toNat_eq_of_eq {c d : Char} (h : c = d) : c.toNat = d.toNat := by
  rw [h]

theorem goodChar_toNat {c : Char} (h : goodChar c = true) :
    (97 ≤ c.toNat ∧ c.toNat ≤ 122) ∨ (48 ≤ c.toNat ∧ c.toNat ≤ 57) ∨
      c.toNat = 95 := by
  unfold goodChar isLowerChar isDigitChar at h
  rcases Bool.or_eq_true_iff.mp h with h' | hu
  · rcases Bool.or_eq_true_iff.mp h' with hl | hd
    · exact Or.inl ⟨of_decide_eq_true (Bool.and_eq_true_iff.mp hl).1,
        of_decide_eq_true (Bool.and_eq_true_iff.mp hl).2⟩
    · exact Or.inr (Or.inl ⟨of_decide_eq_true (Bool.and_eq_true_iff.mp hd).1,
        of_decide_eq_true (Bool.and_eq_true_iff.mp hd).2⟩)
  · exact Or.inr (Or.inr (toNat_eq_of_eq (of_decide_eq_true hu)))

theorem lowerChar_toNat_of_upper {c : Char} (h : isUpperChar c = true) :
    (lowerChar c).toNat = c.toNat + 32 := by
  have h1 : 65 ≤ c.toNat := of_decide_eq_true (Bool.and_eq_true_iff.mp h).1
  have h2 : c.toNat ≤ 90 := of_decide_eq_true (Bool.and_eq_true_iff.mp h).2
  unfold lowerChar
  rw [if_pos h]
  exact toNat_ofNat_add32 c.toNat h1 h2

theorem toNat_space : (' ' : Char).toNat = 32 := by decide

/-- Every output of `cleanChar` is a lower-case letter, a digit, or an
underscore. -/
theorem goodChar_cleanChar (c : Char) : goodChar (cleanChar c) = true := by
  unfold cleanChar
  by_cases hu : isUpperChar c = true
  · have hlow : (lowerChar c).toNat = c.toNat + 32 := lowerChar_toNat_of_upper hu
    have h1 : 65 ≤ c.toNat := of_decide_eq_true (Bool.and_eq_true_iff.mp hu).1
    have h2 : c.toNat ≤ 90 := of_decide_eq_true (Bool.and_eq_true_iff.mp hu).2
    have hn : 97 ≤ (lowerChar c).toNat ∧ (lowerChar c).toNat ≤ 122 := by omega
    have hsp : ¬ lowerChar c = ' ' := by
      intro h
      have h' := toNat_eq_of_eq h
      rw [toNat_space] at h'
      omega
    have hus : underscoreSpace (lowerChar c) = lowerChar c := by
      unfold underscoreSpace
      rw [if_neg hsp]
    have hlc : isLowerChar (lowerChar c) = true := by
      unfold isLowerChar
      exact Bool.and_eq_true_iff.mpr ⟨decide_eq_true hn.1, decide_eq_true hn.2⟩
    have hw : isWordChar (lowerChar c) = true := by
      unfold isWordChar
      simp [hlc]
    rw [hus, if_pos hw]
    unfold goodChar
    simp [hlc]
  · have hlo : lowerChar c = c := by
      unfold lowerChar
      rw [if_neg hu]
    rw [hlo]
    by_cases hsp : c = ' '
    · have hus : underscoreSpace c = '_' := by
        unfold underscoreSpace
        rw [if_pos hsp]
      rw [hus]
      decide
    · have hus : underscoreSpace c = c := by
        unfold underscoreSpace
        rw [if_neg hsp]
      rw [hus]
      by_cases hw : isWordChar c = true
      · rw [if_pos hw]
        unfold isWordChar at hw
        unfold goodChar
        rcases Bool.or_eq_true_iff.mp hw with h' | h
        · rcases Bool.or_eq_true_iff.mp h' with h'' | h
          · rcases Bool.or_eq_true_iff.mp h'' with h | h
            · exact absurd h hu
            · simp [h]
          · simp [h]
        · simp [h]
      · rw [if_neg hw]
        decide

theorem not_isPySpace_of_good {c : Char} (h : goodChar c = true) :
    isPySpace c = false := by
  rcases goodChar_toNat h with h' | h' | h' <;>
    (unfold isPySpace; simp only [Bool.or_eq_false_iff, decide_eq_false_iff_not]; omega)

theorem isWordChar_of_good {c : Char} (h : goodChar c = true) :
    isWordChar c = true := by
  unfold goodChar at h
  unfold isWordChar
  rcases Bool.or_eq_true_iff.mp h with h' | h
  · rcases Bool.or_eq_true_iff.mp h' with h | h <;> simp [h]
  · simp [h]

theorem not_isUpperChar_of_good {c : Char} (h : goodChar c = true) :
    isUpperChar c = false := by
  rcases goodChar_toNat h with h' | h' | h' <;>
    (unfold isUpperChar; simp only [Bool.and_eq_false_iff, decide_eq_false_iff_not]; omega)

/-- Function `cleanChar` fixes every good character. -/
theorem cleanChar_of_good {c : Char} (h : goodChar c = true) :
    cleanChar c = c := by
  have hup := not_isUpperChar_of_good h
  have hsp : ¬ c = ' ' := by
    intro hc
    have h32 := toNat_eq_of_eq hc
    rw [toNat_space] at h32
    rcases goodChar_toNat h with h' | h' | h' <;> omega
  have hlo : lowerChar c = c := by
    unfold lowerChar
    rw [if_neg (by simp [hup] : ¬ isUpperChar c = true)]
  have hus : underscoreSpace c = c := by
    unfold underscoreSpace
    rw [if_neg hsp]
  unfold cleanChar
  rw [hlo, hus, if_pos (isWordChar_of_good h)]

/-! ### The sanitizer's output characters -/

theorem dropWhile_of_forall_false {α : Type} {p : α → Bool} {l : List α}
    (h : ∀ a ∈ l, p a = false) : l.dropWhile p = l := by
  cases l with
  | nil => rfl
  | cons a t =>
    rw [List.dropWhile_cons, h a (by simp)]
    simp

theorem stripChars_of_good {cs : List Char}
    (h : ∀ c ∈ cs, goodChar c = true) : stripChars cs = cs := by
  unfold stripChars
  rw [dropWhile_of_forall_false (fun c hc => not_isPySpace_of_good (h c hc)),
    dropWhile_of_forall_false
      (fun c hc => not_isPySpace_of_good (h c (List.mem_reverse.mp hc))),
    List.reverse_reverse]

theorem mem_fixStart {cs : List Char} {c : Char} (h : c ∈ fixStart cs) :
    c = '_' ∨ c ∈ cs := by
  unfold fixStart at h
  by_cases hs : startsOk cs = true
  · rw [if_pos hs] at h
    exact Or.inr h
  · rw [if_neg hs] at h
    rcases List.mem_cons.mp h with h' | h'
    · exact Or.inl h'
    · exact Or.inr h'

theorem startsOk_fixStart (cs : List Char) : startsOk (fixStart cs) = true := by
  unfold fixStart
  by_cases hs : startsOk cs = true
  · rw [if_pos hs]
    exact hs
  · rw [if_neg hs]
    exact (by decide : isValidStart '_' = true)

theorem fixStart_of_startsOk {cs : List Char} (h : startsOk cs = true) :
    fixStart cs = cs := by
  unfold fixStart
  rw [if_pos h]

theorem data_mk (l : List Char) : (String.mk l).data = l := rfl

theorem goodChar_mem_clean {s : String} {c : Char}
    (h : c ∈ (clean_property_name s).data) : goodChar c = true := by
  unfold clean_property_name at h
  rw [data_mk] at h
  rcases mem_fixStart h with h' | h'
  · rw [h']
    decide
  · rcases List.mem_map.mp h' with ⟨e, _, he⟩
    rw [← he]
    exact goodChar_cleanChar e

theorem startsOk_clean (s : String) :
    startsOk (clean_property_name s).data = true := by
  unfold clean_property_name
  rw [data_mk]
  exact startsOk_fixStart _

/-- The sanitizer's result always matches `^[A-Za-z_][A-Za-z0-9_]*$`. -/
theorem matchesIdent_clean (s : String) :
    matchesIdent (clean_property_name s) = true := by
  unfold matchesIdent
  rw [startsOk_clean s]
  simp only [Bool.true_and, List.all_eq_true]
  intro c hc
  exact isWordChar_of_good (goodChar_mem_clean (List.mem_of_mem_drop hc))

/-- A nonempty string whose characters are all good and which starts with
a valid start character is a fixed point of the sanitizer. -/
theorem clean_fixed {s : String}
    (hgood : ∀ c ∈ s.data, goodChar c = true)
    (hstart : startsOk s.data = true) :
    clean_property_name s = s := by
  have hstrip : stripChars s.data = s.data := stripChars_of_good hgood
  have hmap : s.data.map cleanChar = s.data := by
    rw [List.map_congr_left (fun c hc => cleanChar_of_good (hgood c hc))]
    exact List.map_id s.data
  unfold clean_property_name
  rw [hstrip, hmap, fixStart_of_startsOk hstart]

/-- The sanitizer is idempotent. -/
theorem clean_idempotent (s : String) :
    clean_property_name (clean_property_name s) = clean_property_name s :=
  clean_fixed (fun _ hc => goodChar_mem_clean hc) (startsOk_clean s)

/-! ## Data model: raw scalar values and data frames

A parsed file is the column-oriented table pandas produces: a list of
(label, values) columns. A cell is numeric, textual, or absent (NaN).
-/

/-- One raw scalar cell of a parsed table. -/
inductive Value where
  | num (q : ℚ)
  | str (s : String)
  | absent
deriving DecidableEq, Repr

/-- Model of `pd.isna` on one cell. -/
def Value.isAbsent : Value → Bool
  | .absent => true
  | _ => false

/-- Is the cell a numeric (integer or floating-point) value? -/
def Value.isNum : Value → Bool
  | .num _ => true
  | _ => false

/-- A parsed tabular file: ordered named columns of cells. -/
structure DataFrame where
  cols : List (String × List Value)
deriving DecidableEq, Repr

/-- Model of `pd.api.types.is_numeric_dtype(df[col])`: a parsed column carries a
numeric dtype exactly when every non-absent cell is numeric (absent cells
are NaN, which live inside numeric dtypes). -/
def is_numeric_dtype (vs : List Value) : Bool :=
  vs.all (fun v => v.isNum || v.isAbsent)

/-- The Weaviate property data types used by the source. -/
inductive DataType where
  | NUMBER
  | TEXT
deriving DecidableEq, Repr

/-- Type inference `DataType.NUMBER if pd.api.types.is_numeric_dtype(df[col]) else
DataType.TEXT` (source line 73). -/
def inferDataType (vs : List Value) : DataType :=
  if is_numeric_dtype vs then DataType.NUMBER else DataType.TEXT

/-- Model of `df.dropna(axis=1, how='all')` (source line 62): drop the columns all
of whose cells are absent. -/
def dropAllAbsentCols (df : DataFrame) : DataFrame :=
  ⟨df.cols.filter (fun c => !(c.2.all Value.isAbsent))⟩

/-! ## Schema building -/

/-- Reserved names `RESERVED_NAMES = {"id"}` (source line 22). -/
def RESERVED_NAMES : List String := ["id"]

/-- The attribute name given to a column: sanitize the label, then suffix
`_field` when the result is reserved (source lines 68–70). -/
def finalColName (col : String) : String :=
  if clean_property_name col ∈ RESERVED_NAMES
  then clean_property_name col ++ "_field"
  else clean_property_name col

/-- A Weaviate property specification as passed to
`client.collections.create`. -/
structure Property where
  name : String
  data_type : DataType
deriving DecidableEq, Repr

/-- The ordered property list built for a data frame (source lines 67–74):
one `Property(name=col_clean, data_type=...)` per column. -/
def buildProps (df : DataFrame) : List Property :=
  df.cols.map (fun c => ⟨finalColName c.1, inferDataType c.2⟩)

/-- The rename map `{col: col_clean}` built alongside the property list
(source line 71). -/
def rename_map (df : DataFrame) : List (String × String) :=
  df.cols.map (fun c => (c.1, finalColName c.1))

/-- The human-readable schema description accumulated per column
(source lines 65 and 75). -/
def schema_desc (table_name : String) (df : DataFrame) : String :=
  "Table: " ++ table_name ++ "\n" ++
    String.join (df.cols.map (fun c =>
      "- " ++ finalColName c.1 ++ ": " ++
        (if inferDataType c.2 = DataType.NUMBER then "Number" else "Text") ++ "\n"))

/-- Model of `df.rename(columns=rename_map, inplace=True)` (source line 77). -/
def renameDf (df : DataFrame) : DataFrame :=
  ⟨df.cols.map (fun c => (finalColName c.1, c.2))⟩

/-! ## The external store -/

/-- One named collection held by the store, with its committed schema and
its stored objects. -/
structure StoredCollection where
  name : String
  properties : List Property
  objects : List (List (String × Value))
deriving DecidableEq, Repr

/-- The state of the external document store. -/
structure Store where
  colls : List StoredCollection
deriving DecidableEq, Repr

/-- Model of `client.collections.exists(name)`. -/
def collExists (s : Store) (n : String) : Bool :=
  s.colls.any (fun c => c.name == n)

/-- Model of `client.collections.delete(name)`. -/
def deleteCollection (s : Store) (n : String) : Store :=
  ⟨s.colls.filter (fun c => !(c.name == n))⟩

/-- Model of `client.collections.create(name, ..., properties=props)`: a fresh,
empty collection with the given schema. -/
def createCollection (s : Store) (n : String) (props : List Property) : Store :=
  ⟨s.colls ++ [⟨n, props, []⟩]⟩

/-- Source lines 80–82: delete the collection when it already exists, then
create it anew. -/
def provisionCollection (s : Store) (n : String) (props : List Property) : Store :=
  createCollection (if collExists s n then deleteCollection s n else s) n props

/-- The collections of the store carrying a given name. -/
def collsNamed (s : Store) (n : String) : List StoredCollection :=
  s.colls.filter (fun c => c.name == n)

/-! ## Bulk loading -/

/-- The number of rows `df.iterrows()` yields. -/
def nRows (df : DataFrame) : Nat :=
  (df.cols.map (fun c => c.2.length)).foldr max 0

/-- Row `i` of the frame as the pandas `Series` of all columns. -/
def seriesRow (df : DataFrame) (i : Nat) : List (String × Value) :=
  df.cols.map (fun c => (c.1, c.2.getD i Value.absent))

/-- Model of `row.dropna().to_dict()` (source line 88): the object submitted for
row `i`, with absent attributes stripped. -/
def rowObject (df : DataFrame) (i : Nat) : List (String × Value) :=
  (seriesRow df i).filter (fun p => !(p.2.isAbsent))

/-- All objects submitted by the batch loop of source lines 86–88. -/
def loadedObjects (df : DataFrame) : List (List (String × Value)) :=
  (List.range (nRows df)).map (rowObject df)

/-- Append the submitted objects to the collection of the given name. -/
def insertObjects (s : Store) (n : String)
    (objs : List (List (String × Value))) : Store :=
  ⟨s.colls.map (fun c =>
    if c.name == n then ⟨c.name, c.properties, c.objects ++ objs⟩ else c)⟩

/-! ## Batch orchestration -/

/-- Model of `os.path.splitext(filename)[0]`: cut the extension at the last dot,
unless every character before that dot is itself a dot. -/
def splitextRoot (s : String) : String :=
  match ((List.range s.data.length).filter
      (fun i => s.data.getD i ' ' == '.')).getLast? with
  | none => s
  | some i =>
    if (s.data.take i).all (fun c => c == '.') then s
    else String.mk (s.data.take i)

/-- The derived collection name (source line 54):
`os.path.splitext(filename)[0].replace(" ", "_").lower()`. -/
def tableName (filename : String) : String :=
  String.mk ((splitextRoot filename).data.map (fun c => lowerChar (underscoreSpace c)))

/-- One uploaded file together with the behavior of its environment: the
result of parsing its bytes (`none` when `pd.read_excel`/`pd.read_csv`
raises) and whether the store raises while provisioning or loading it
(those calls sit outside any try/except in the source). -/
structure UploadedFile where
  name : String
  parsed : Option DataFrame
  storeFails : Bool
deriving DecidableEq, Repr

/-- The outcome of the per-file body of the loop of source lines 52–92. -/
inductive FileStep where
  | failed (reason : String)
  | raised (msg : String)
  | created (store : Store) (collName : String) (schemaText : String)
deriving DecidableEq, Repr

/-- One iteration of the loop of `process_uploaded_files`: parse (recording
a failure and continuing on error), build the schema, provision the
collection destructively, bulk-load the renamed rows. A store failure is
an uncaught exception. -/
def processFile (s : Store) (file : UploadedFile) : FileStep :=
  match file.parsed with
  | none => .failed ("Failed to read file: " ++ file.name)
  | some df0 =>
    if file.storeFails then .raised ("store failure: " ++ file.name)
    else
      .created
        (insertObjects
          (provisionCollection s (tableName file.name)
            (buildProps (dropAllAbsentCols df0)))
          (tableName file.name)
          (loadedObjects (renameDf (dropAllAbsentCols df0))))
        (tableName file.name)
        (schema_desc (tableName file.name) (dropAllAbsentCols df0))

/-- The aggregate state built by `process_uploaded_files`: final store,
`collections_created`, `table_schemas`, and the per-file failure entries
reported through `st.error`. -/
structure IngestResult where
  store : Store
  collections_created : List String
  table_schemas : List String
  failures : List (String × String)
deriving DecidableEq, Repr

/-- Orchestrator `process_uploaded_files` (source lines 48–94): fold the per-file step
over the batch. A parse failure records an entry and continues; an
uncaught store exception aborts the remaining batch (`Except.error`). -/
def process_uploaded_files (s : Store) (files : List UploadedFile) :
    Except String IngestResult :=
  match files with
  | [] => .ok ⟨s, [], [], []⟩
  | f :: rest =>
    match processFile s f with
    | .failed reason =>
      (process_uploaded_files s rest).map (fun r =>
        ⟨r.store, r.collections_created, r.table_schemas,
          (f.name, reason) :: r.failures⟩)
    | .raised msg => .error msg
    | .created s2 n d =>
      (process_uploaded_files s2 rest).map (fun r =>
        ⟨r.store, n :: r.collections_created, d :: r.table_schemas, r.failures⟩)

/-- Model of `"\n\n".join(table_schemas)` (source line 94). -/
def schema_prompt (r : IngestResult) : String :=
  String.intercalate "\n\n" r.table_schemas

/-- Purge `delete_existing_collections` (source lines 30–37): list every
collection and delete each one, inside a try/except — a store exception is
caught, an error message is displayed, and the script continues against
whatever was not yet deleted. `purgeFailAt` is the environment's choice of
when the store raises during the purge: `none` when no call raises,
`some k` when the k-th delete call raises (so only the first `k`
collections listed were deleted; `some 0` models `list_all` itself
raising). -/
def delete_existing_collections (s : Store) (purgeFailAt : Option Nat) : Store :=
  match purgeFailAt with
  | none => (s.colls.map (fun c => c.name)).foldl deleteCollection s
  | some k => ((s.colls.map (fun c => c.name)).take k).foldl deleteCollection s

/-- The script body (source lines 103 and 123–124): attempt the purge of
all collections once, then process the uploaded batch (the purge's caught
exception never aborts the script). -/
def runScript (s : Store) (purgeFailAt : Option Nat)
    (files : List UploadedFile) : Except String IngestResult :=
  process_uploaded_files (delete_existing_collections s purgeFailAt) files

/-! ## The query-agent session -/

/-- The `QueryAgent` object: bound collection list and system prompt. -/
structure QueryAgentSession where
  collections : List String
  system_prompt : String
deriving DecidableEq, Repr

/-- Source lines 139–144: `st.session_state.query_agent` is created only
when absent (`if "query_agent" not in st.session_state`); otherwise the
stored object is kept untouched. -/
def ensure_session (cur : Option QueryAgentSession)
    (collections : List String) (prompt : String) : Option QueryAgentSession :=
  match cur with
  | some a => some a
  | none => some ⟨collections, prompt⟩

/-! ## Store lemmas -/

theorem collsNamed_provision_self (s : Store) (n : String) (props : List Property) :
    collsNamed (provisionCollection s n props) n = [⟨n, props, []⟩] := by
  by_cases hex : collExists s n = true
  · simp only [collsNamed, provisionCollection, createCollection, deleteCollection,
      if_pos hex, List.filter_append, List.filter_filter]
    rw [List.filter_eq_nil_iff.mpr (fun c _ => by
      by_cases h : c.name == n <;> simp [h])]
    simp
  · simp only [collsNamed, provisionCollection, createCollection, if_neg hex,
      List.filter_append]
    unfold collExists at hex
    simp only [List.any_eq_true, not_exists, not_and] at hex
    rw [List.filter_eq_nil_iff.mpr (fun c hc h => hex c hc h)]
    simp

theorem collsNamed_provision_other (s : Store) (n m : String)
    (props : List Property) (hmn : m ≠ n) :
    collsNamed (provisionCollection s n props) m = collsNamed s m := by
  have hnewm : ((n : String) == m) = false := by
    simp only [beq_eq_false_iff_ne, ne_eq]
    exact fun h => hmn h.symm
  by_cases hex : collExists s n = true
  · simp only [collsNamed, provisionCollection, createCollection, deleteCollection,
      if_pos hex, List.filter_append, List.filter_filter, List.filter_cons,
      hnewm]
    simp only [Bool.false_eq_true, if_false, List.filter_nil, List.append_nil]
    apply List.filter_congr
    intro c _
    by_cases h : c.name == m
    · have hne : (c.name == n) = false := by
        simp only [beq_eq_false_iff_ne, ne_eq]
        intro hcn
        exact hmn (by rw [← hcn, eq_of_beq h])
      simp [h, hne]
    · simp [h]
  · simp only [collsNamed, provisionCollection, createCollection, if_neg hex,
      List.filter_append, List.filter_cons, hnewm]
    simp

theorem collsNamed_insert_self (s : Store) (n : String)
    (objs : List (List (String × Value))) :
    collsNamed (insertObjects s n objs) n =
      (collsNamed s n).map
        (fun c => ⟨c.name, c.properties, c.objects ++ objs⟩) := by
  show List.filter (fun c => c.name == n)
      (List.map (fun c =>
        if c.name == n then
          (⟨c.name, c.properties, c.objects ++ objs⟩ : StoredCollection)
        else c) s.colls) = _
  rw [List.filter_map]
  rw [List.filter_congr (fun c _ => by
    show ((if c.name == n then
        (⟨c.name, c.properties, c.objects ++ objs⟩ : StoredCollection)
      else c).name == n) = (c.name == n)
    by_cases h : (c.name == n) = true
    · rw [if_pos h]
    · rw [if_neg h])]
  apply List.map_congr_left
  intro c hc
  have h : (c.name == n) = true := (List.mem_filter.mp hc).2
  show (if c.name == n then
      (⟨c.name, c.properties, c.objects ++ objs⟩ : StoredCollection)
    else c) = _
  rw [if_pos h]

theorem collsNamed_insert_other (s : Store) (n m : String)
    (objs : List (List (String × Value))) (hmn : m ≠ n) :
    collsNamed (insertObjects s n objs) m = collsNamed s m := by
  show List.filter (fun c => c.name == m)
      (List.map (fun c =>
        if c.name == n then
          (⟨c.name, c.properties, c.objects ++ objs⟩ : StoredCollection)
        else c) s.colls) = _
  rw [List.filter_map]
  rw [List.filter_congr (fun c _ => by
    show ((if c.name == n then
        (⟨c.name, c.properties, c.objects ++ objs⟩ : StoredCollection)
      else c).name == m) = (c.name == m)
    by_cases h : (c.name == n) = true
    · rw [if_pos h]
    · rw [if_neg h])]
  have hfix : ∀ c ∈ List.filter (fun c => c.name == m) s.colls,
      (if c.name == n then
        (⟨c.name, c.properties, c.objects ++ objs⟩ : StoredCollection)
      else c) = c := by
    intro c hc
    have h : (c.name == m) = true := (List.mem_filter.mp hc).2
    rw [if_neg (by
      intro hn
      exact hmn (by rw [← eq_of_beq h, eq_of_beq hn]))]
  rw [List.map_congr_left hfix]
  exact List.map_id _

/-! ## Orchestrator lemmas -/

theorem processFile_created_inv {s : Store} {f : UploadedFile} {s2 : Store}
    {n d : String} (h : processFile s f = .created s2 n d) :
    ∃ df0, f.parsed = some df0 ∧ f.storeFails = false ∧
      n = tableName f.name ∧
      d = schema_desc (tableName f.name) (dropAllAbsentCols df0) ∧
      s2 = insertObjects
        (provisionCollection s (tableName f.name)
          (buildProps (dropAllAbsentCols df0)))
        (tableName f.name) (loadedObjects (renameDf (dropAllAbsentCols df0))) := by
  cases hp : f.parsed with
  | none => simp [processFile, hp] at h
  | some df0 =>
    cases hsf : f.storeFails with
    | true => simp [processFile, hp, hsf] at h
    | false =>
      simp only [processFile, hp, hsf, Bool.false_eq_true, if_false,
        FileStep.created.injEq] at h
      rcases h with ⟨h1, h2, h3⟩
      exact ⟨df0, rfl, rfl, h2.symm, h3.symm, h1.symm⟩

theorem process_cons_failed {s : Store} {f : UploadedFile}
    {rest : List UploadedFile} {reason : String}
    (h : processFile s f = .failed reason) :
    process_uploaded_files s (f :: rest)
      = (process_uploaded_files s rest).map (fun r =>
          ⟨r.store, r.collections_created, r.table_schemas,
            (f.name, reason) :: r.failures⟩) := by
  conv_lhs => rw [process_uploaded_files]
  rw [h]

theorem process_cons_raised {s : Store} {f : UploadedFile}
    {rest : List UploadedFile} {msg : String}
    (h : processFile s f = .raised msg) :
    process_uploaded_files s (f :: rest) = .error msg := by
  conv_lhs => rw [process_uploaded_files]
  rw [h]

theorem process_cons_created {s : Store} {f : UploadedFile}
    {rest : List UploadedFile} {s2 : Store} {n d : String}
    (h : processFile s f = .created s2 n d) :
    process_uploaded_files s (f :: rest)
      = (process_uploaded_files s2 rest).map (fun r =>
          ⟨r.store, n :: r.collections_created, d :: r.table_schemas,
            r.failures⟩) := by
  conv_lhs => rw [process_uploaded_files]
  rw [h]

theorem foldl_delete_colls (names : List String) (s : Store) :
    (names.foldl deleteCollection s).colls
      = s.colls.filter (fun c => !(names.any (fun n => c.name == n))) := by
  induction names generalizing s with
  | nil =>
    rw [List.foldl_nil]
    exact (List.filter_eq_self.mpr (fun a _ => by simp)).symm
  | cons n ns ih =>
    rw [List.foldl_cons, ih]
    show (deleteCollection s n).colls.filter _ = _
    simp only [deleteCollection, List.filter_filter]
    apply List.filter_congr
    intro c _
    simp [List.any_cons, Bool.and_comm]

/-- When no store call raises, the startup purge really empties the
store. -/
theorem delete_existing_colls_nil (s : Store) :
    (delete_existing_collections s none).colls = [] := by
  show ((s.colls.map (fun c => c.name)).foldl deleteCollection s).colls = []
  rw [foldl_delete_colls]
  apply List.filter_eq_nil_iff.mpr
  intro c hc
  have hany : ((s.colls.map (fun c => c.name)).any (fun n => c.name == n)) = true := by
    simp only [List.any_eq_true]
    exact ⟨c.name, List.mem_map_of_mem _ hc, by simp⟩
  simp [hany]

theorem mem_insertObjects {s : Store} {n : String}
    {objs : List (List (String × Value))} {c : StoredCollection}
    (h : c ∈ (insertObjects s n objs).colls) :
    c ∈ s.colls ∨ c.name = n := by
  rcases List.mem_map.mp h with ⟨c', hc', hfc⟩
  by_cases hb : (c'.name == n) = true
  · right
    rw [← hfc, if_pos hb]
    exact eq_of_beq hb
  · left
    rw [← hfc, if_neg hb]
    exact hc'

theorem mem_provision {s : Store} {n : String} {props : List Property}
    {c : StoredCollection}
    (h : c ∈ (provisionCollection s n props).colls) :
    c ∈ s.colls ∨ c.name = n := by
  unfold provisionCollection createCollection at h
  rcases List.mem_append.mp h with h' | h'
  · by_cases hex : collExists s n = true
    · rw [if_pos hex] at h'
      exact Or.inl (List.mem_filter.mp h').1
    · rw [if_neg hex] at h'
      exact Or.inl h'
  · right
    rw [List.mem_singleton.mp h']

/-- Every collection present after a batch either predates the batch or
bears the derived name of one of its files. -/
theorem process_store_names {files : List UploadedFile} :
    ∀ {s r}, process_uploaded_files s files = .ok r →
      ∀ c ∈ r.store.colls,
        c ∈ s.colls ∨ c.name ∈ files.map (fun f => tableName f.name) := by
  induction files with
  | nil =>
    intro s r h c hc
    simp only [process_uploaded_files, Except.ok.injEq] at h
    left
    rw [← h] at hc
    exact hc
  | cons f rest ih =>
    intro s r h c hc
    cases hstep : processFile s f with
    | failed reason =>
      rw [process_cons_failed hstep] at h
      cases hrec : process_uploaded_files s rest with
      | error e => rw [hrec] at h; simp [Except.map] at h
      | ok r0 =>
        rw [hrec] at h
        simp only [Except.map, Except.ok.injEq] at h
        have hst : r.store = r0.store := by rw [← h]
        rcases ih hrec c (by rw [← hst]; exact hc) with h' | h'
        · exact Or.inl h'
        · exact Or.inr (by
            simp only [List.map_cons, List.mem_cons]
            exact Or.inr h')
    | raised msg =>
      rw [process_cons_raised hstep] at h
      cases h
    | created s2 n d =>
      rw [process_cons_created hstep] at h
      cases hrec : process_uploaded_files s2 rest with
      | error e => rw [hrec] at h; simp [Except.map] at h
      | ok r0 =>
        rw [hrec] at h
        simp only [Except.map, Except.ok.injEq] at h
        have hst : r.store = r0.store := by rw [← h]
        rcases ih hrec c (by rw [← hst]; exact hc) with h' | h'
        · rcases processFile_created_inv hstep with ⟨df0, _, _, hn, _, hs2⟩
          rw [hs2] at h'
          rcases mem_insertObjects h' with h'' | h''
          · rcases mem_provision h'' with h3 | h3
            · exact Or.inl h3
            · exact Or.inr (by
                simp only [List.map_cons, List.mem_cons]
                exact Or.inl (by rw [h3]))
          · exact Or.inr (by
              simp only [List.map_cons, List.mem_cons]
              exact Or.inl (by rw [h'']))
        · exact Or.inr (by
            simp only [List.map_cons, List.mem_cons]
            exact Or.inr h')

/-- When the store raises for no file of the batch, the batch always
completes: its failure entries are exactly the unparseable files and its
created collections are exactly the derived names of the parseable ones,
in order. -/
theorem process_ok_of_no_storeFails {files : List UploadedFile}
    (hsf : ∀ f ∈ files, f.storeFails = false) (s : Store) :
    ∃ r, process_uploaded_files s files = .ok r ∧
      r.failures = (files.filter (fun f => f.parsed.isNone)).map
        (fun f => (f.name, "Failed to read file: " ++ f.name)) ∧
      r.collections_created = (files.filter (fun f => f.parsed.isSome)).map
        (fun f => tableName f.name) := by
  induction files generalizing s with
  | nil => exact ⟨⟨s, [], [], []⟩, rfl, rfl, rfl⟩
  | cons f rest ih =>
    have hsf' : ∀ g ∈ rest, g.storeFails = false :=
      fun g hg => hsf g (List.mem_cons_of_mem f hg)
    cases hp : f.parsed with
    | none =>
      rcases ih hsf' s with ⟨r0, hr0, hfail, hcoll⟩
      refine ⟨⟨r0.store, r0.collections_created, r0.table_schemas,
        (f.name, "Failed to read file: " ++ f.name) :: r0.failures⟩, ?_, ?_, ?_⟩
      · rw [process_cons_failed (show processFile s f
            = .failed ("Failed to read file: " ++ f.name) by
          simp [processFile, hp]), hr0]
        rfl
      · simp [List.filter_cons, hp, hfail]
      · simp [List.filter_cons, hp, hcoll]
    | some df0 =>
      have hf : f.storeFails = false := hsf f (List.mem_cons_self f rest)
      rcases ih hsf' (insertObjects
        (provisionCollection s (tableName f.name)
          (buildProps (dropAllAbsentCols df0)))
        (tableName f.name)
        (loadedObjects (renameDf (dropAllAbsentCols df0)))) with ⟨r0, hr0, hfail, hcoll⟩
      refine ⟨⟨r0.store, tableName f.name :: r0.collections_created,
        schema_desc (tableName f.name) (dropAllAbsentCols df0) :: r0.table_schemas,
        r0.failures⟩, ?_, ?_, ?_⟩
      · rw [process_cons_created (show processFile s f = .created
            (insertObjects
              (provisionCollection s (tableName f.name)
                (buildProps (dropAllAbsentCols df0)))
              (tableName f.name)
              (loadedObjects (renameDf (dropAllAbsentCols df0))))
            (tableName f.name)
            (schema_desc (tableName f.name) (dropAllAbsentCols df0)) by
          simp [processFile, hp, hf]), hr0]
        rfl
      · simp [List.filter_cons, hp, hfail]
      · simp [List.filter_cons, hp, hcoll]

theorem lookup_rename_map_list (cols : List (String × List Value)) (col : String)
    (h : col ∈ cols.map Prod.fst) :
    List.lookup col (cols.map (fun c => (c.1, finalColName c.1)))
      = some (finalColName col) := by
  induction cols with
  | nil => cases h
  | cons c t ih =>
    have h' : col = c.1 ∨ col ∈ t.map Prod.fst := by
      simpa using h
    cases hb : col == c.1 with
    | true =>
      have hc : col = c.1 := eq_of_beq hb
      subst hc
      simp [List.lookup]
    | false =>
      have hne : ¬ col = c.1 := by
        intro hcc
        rw [hcc] at hb
        simp at hb
      simp only [List.map_cons, List.lookup, hb]
      exact ih (h'.resolve_left hne)

theorem lookup_rename_map {df : DataFrame} {col : String}
    (h : col ∈ df.cols.map Prod.fst) :
    List.lookup col (rename_map df) = some (finalColName col) :=
  lookup_rename_map_list df.cols col h

/-! ## Concrete example data shared by witnesses and counterexamples -/

/-- A well-behaved uploaded file. -/
def fileA : UploadedFile := ⟨"a.csv", some ⟨[("x", [Value.num 1])]⟩, false⟩

/-- An uploaded file whose provisioning/loading raises in the store. -/
def fileBStoreFail : UploadedFile := ⟨"b.csv", some ⟨[]⟩, true⟩

/-- An uploaded file whose bytes cannot be read as tabular data. -/
def fileBUnreadable : UploadedFile := ⟨"b.csv", none, false⟩

/-- A second well-behaved uploaded file. -/
def fileC : UploadedFile := ⟨"c.csv", some ⟨[("y", [Value.str "v"])]⟩, false⟩

/-- A store already holding a stale collection named `a` from a prior run. -/
def staleStore : Store := ⟨[⟨"a", [], [[("old", Value.str "stale")]]⟩]⟩

/-- A store holding a collection from an earlier run whose name no file of
the current batch reuses. -/
def orphanStore : Store := ⟨[⟨"old", [], []⟩]⟩

/-- The store state after ingesting `fileA` alone. -/
def ingestedStoreA : Store :=
  ⟨[⟨"a", [⟨"x", DataType.NUMBER⟩], [[("x", Value.num 1)]]⟩]⟩

/-- Two columns whose sanitized names collide. -/
def dfCollide : DataFrame := ⟨[("a b", [Value.str "x"]), ("a_b", [Value.str "y"])]⟩

/-- Two columns whose sanitized names stay distinct. -/
def dfDistinct : DataFrame :=
  ⟨[("Site ID", [Value.num 1]), ("Alarm-Code!", [Value.str "x"])]⟩

/-- A single column whose sanitized label is the reserved name `id`. -/
def dfID : DataFrame := ⟨[("ID", [Value.num 1])]⟩

/-! ## Claims -/

/-- C1, counterexample: the claim says a failure at any stage (parsing,
provisioning, loading) is recorded per file and processing continues. The
source wraps only the parse in try/except: with a batch whose middle file
makes the store raise during provisioning, the run aborts — no per-file
failure entry is recorded for `b.csv` and `c.csv` is never processed. -/
theorem claim_C1_counterexample :
    process_uploaded_files ⟨[]⟩ [fileA, fileBStoreFail, fileC]
      = Except.error "store failure: b.csv" ∧
    ∀ r : IngestResult,
      process_uploaded_files ⟨[]⟩ [fileA, fileBStoreFail, fileC]
        ≠ Except.ok r := by
  have h1 : process_uploaded_files ⟨[]⟩ [fileA, fileBStoreFail, fileC]
      = Except.error "store failure: b.csv" := by rfl
  refine ⟨h1, fun r hr => ?_⟩
  rw [h1] at hr
  cases hr

/-- C1, amended: only a parse failure is recorded as a per-file failure
entry and lets processing continue with the next file; when the store
raises for no file of the batch, every unparseable file yields exactly one
failure entry and every parseable file is processed to completion, in
order. (A store failure during provisioning or loading is uncaught and
aborts the remaining batch — see the counterexample.) -/
theorem claim_C1_parse_failures_isolated {files : List UploadedFile}
    (hsf : ∀ f ∈ files, f.storeFails = false) (s : Store) :
    ∃ r, process_uploaded_files s files = .ok r ∧
      r.failures = (files.filter (fun f => f.parsed.isNone)).map
        (fun f => (f.name, "Failed to read file: " ++ f.name)) ∧
      r.collections_created = (files.filter (fun f => f.parsed.isSome)).map
        (fun f => tableName f.name) :=
  process_ok_of_no_storeFails hsf s

theorem claim_C1_witness :
    (∀ f ∈ [fileA, fileBUnreadable, fileC], f.storeFails = false) ∧
    ∃ r, process_uploaded_files ⟨[]⟩ [fileA, fileBUnreadable, fileC] = .ok r ∧
      r.failures = ([fileA, fileBUnreadable, fileC].filter
          (fun f => f.parsed.isNone)).map
        (fun f => (f.name, "Failed to read file: " ++ f.name)) ∧
      r.collections_created = ([fileA, fileBUnreadable, fileC].filter
          (fun f => f.parsed.isSome)).map
        (fun f => tableName f.name) :=
  ⟨by decide, claim_C1_parse_failures_isolated (by decide) ⟨[]⟩⟩

/-- C2: provisioning is destructively idempotent. Whatever the store held
before — in particular a stale collection under the same derived name from
a prior run — after a successful file ingest the store holds exactly one
collection of that name, whose schema is the one built from this file and
whose objects are exactly this file's loaded rows; collections of every
other name are untouched (no in-place schema alteration anywhere). -/
theorem claim_C2_destructive_provisioning (s : Store) (f : UploadedFile)
    (s2 : Store) (n d : String) (h : processFile s f = .created s2 n d) :
    ∃ df0, f.parsed = some df0 ∧
      collsNamed s2 n = [⟨n, buildProps (dropAllAbsentCols df0),
        loadedObjects (renameDf (dropAllAbsentCols df0))⟩] ∧
      ∀ m, m ≠ n → collsNamed s2 m = collsNamed s m := by
  rcases processFile_created_inv h with ⟨df0, hp, _, hn, _, hs2⟩
  subst hn
  subst hs2
  refine ⟨df0, hp, ?_, ?_⟩
  · rw [collsNamed_insert_self, collsNamed_provision_self]
    simp
  · intro m hm
    rw [collsNamed_insert_other _ _ _ _ hm, collsNamed_provision_other _ _ _ _ hm]

theorem claim_C2_witness :
    ∃ df0, fileA.parsed = some df0 ∧
      collsNamed ingestedStoreA "a" = [⟨"a", buildProps (dropAllAbsentCols df0),
        loadedObjects (renameDf (dropAllAbsentCols df0))⟩] ∧
      ∀ m, m ≠ "a" → collsNamed ingestedStoreA m = collsNamed staleStore m :=
  claim_C2_destructive_provisioning staleStore fileA ingestedStoreA "a"
    "Table: a\n- x: Number\n" (by rfl)

/-- C3, counterexample: the claim asserts the sanitized attribute names of
every built schema are pairwise distinct. The builder deduplicates
nothing: the labels `"a b"` and `"a_b"` both sanitize to `a_b`, so the
resulting schema holds two properties of the same name. -/
theorem claim_C3_counterexample :
    ((buildProps dfCollide).map Property.name) = ["a_b", "a_b"] ∧
    ¬ ((buildProps dfCollide).map Property.name).Nodup := by
  exact ⟨by decide, by decide⟩

/-- C3, amended: the schema's attribute names are exactly the
sanitized-and-reserved-fixed column labels in column order, with no
deduplication; they are pairwise distinct exactly when those sanitized
labels are pairwise distinct — columns whose labels collide after
sanitization yield duplicate attribute names. -/
theorem claim_C3_distinct_iff_sanitized_distinct (df : DataFrame) :
    (buildProps df).map Property.name
      = df.cols.map (fun c => finalColName c.1) ∧
    (((buildProps df).map Property.name).Nodup ↔
      (df.cols.map (fun c => finalColName c.1)).Nodup) := by
  have heq : (buildProps df).map Property.name
      = df.cols.map (fun c => finalColName c.1) := by
    unfold buildProps
    rw [List.map_map]
    rfl
  exact ⟨heq, by rw [heq]⟩

theorem claim_C3_witness :
    (dfDistinct.cols.map (fun c => finalColName c.1)).Nodup ∧
    ((buildProps dfDistinct).map Property.name).Nodup :=
  ⟨by decide,
    ((claim_C3_distinct_iff_sanitized_distinct dfDistinct).2).mpr (by decide)⟩

/-- C4: the sanitizer is total and deterministic (a Lean function), its
result always matches `^[A-Za-z_][A-Za-z0-9_]*$`, and it is idempotent. -/
theorem claim_C4_sanitizer_regex_idempotent (x : String) :
    matchesIdent (clean_property_name x) = true ∧
    clean_property_name (clean_property_name x) = clean_property_name x :=
  ⟨matchesIdent_clean x, clean_idempotent x⟩

/-- C5: a column infers as Number exactly when every non-absent cell is
numeric, and as Text otherwise; in particular `[1, 2, "N/A", 4]` infers as
Text and `[1, 2, 3.5, 4]` as Number. -/
theorem claim_C5_type_inference :
    (∀ vs : List Value, inferDataType vs = DataType.NUMBER ↔
      ∀ v ∈ vs, v.isAbsent = false → v.isNum = true) ∧
    inferDataType [.num 1, .num 2, .str "N/A", .num 4] = DataType.TEXT ∧
    inferDataType [.num 1, .num 2, .num (3.5 : ℚ), .num 4] = DataType.NUMBER := by
  refine ⟨?_, rfl, rfl⟩
  intro vs
  constructor
  · intro h v hv habs
    by_cases hnum : is_numeric_dtype vs = true
    · have hall := List.all_eq_true.mp hnum v hv
      rcases Bool.or_eq_true_iff.mp hall with h' | h'
      · exact h'
      · rw [habs] at h'
        cases h'
    · unfold inferDataType at h
      rw [if_neg hnum] at h
      cases h
  · intro hall
    have hnum : is_numeric_dtype vs = true := by
      apply List.all_eq_true.mpr
      intro v hv
      by_cases habs : v.isAbsent = true
      · simp [habs]
      · have hz := hall v hv (by simpa using habs)
        simp [hz]
    unfold inferDataType
    rw [if_pos hnum]

/-- C6, counterexample: the claim says every orchestration run deletes all
pre-existing collections before any file is processed, so nothing from an
earlier run survives. But the purge sits in try/except (source lines
31–37): when the store raises during it, the exception is caught and the
run continues against the unpurged store. Here `list_all` raises
(`some 0`), the run still completes normally, and the stale collection
`old` — whose name no file of the batch derives — survives in the final
store. -/
theorem claim_C6_counterexample :
    ∃ r, runScript orphanStore (some 0) [fileA] = Except.ok r ∧
      (⟨"old", [], []⟩ : StoredCollection) ∈ r.store.colls ∧
      ¬ "old" ∈ [fileA].map (fun f => tableName f.name) := by
  refine ⟨⟨⟨[⟨"old", [], []⟩,
      ⟨"a", [⟨"x", DataType.NUMBER⟩], [[("x", Value.num 1)]]⟩]⟩,
    ["a"], ["Table: a\n- x: Number\n"], []⟩, rfl, ?_, ?_⟩
  · decide
  · decide

/-- C6, amended: the purge of all pre-existing collections is attempted
once, before any uploaded file is processed. When no store failure
interrupts it, it empties the store, so every collection left after a
completed run bears the derived name of a file of this batch and nothing
from an earlier run survives. When the purge raises, the exception is
caught, only the collections already deleted are gone, and the run
continues against a store that may still hold earlier runs' collections
(see the counterexample). -/
theorem claim_C6_purge_before_processing (s : Store)
    (files : List UploadedFile) (r : IngestResult)
    (h : runScript s none files = .ok r) :
    (delete_existing_collections s none).colls = [] ∧
    ∀ c ∈ r.store.colls, c.name ∈ files.map (fun f => tableName f.name) := by
  refine ⟨delete_existing_colls_nil s, ?_⟩
  intro c hc
  rcases process_store_names
      (show process_uploaded_files (delete_existing_collections s none) files
        = .ok r from h) c hc with h' | h'
  · rw [delete_existing_colls_nil s] at h'
    cases h'
  · exact h'

theorem claim_C6_witness :
    (delete_existing_collections staleStore none).colls = [] ∧
    ∀ c ∈ (⟨ingestedStoreA, ["a"], ["Table: a\n- x: Number\n"],
        []⟩ : IngestResult).store.colls,
      c.name ∈ [fileA].map (fun f => tableName f.name) :=
  claim_C6_purge_before_processing staleStore [fileA]
    ⟨ingestedStoreA, ["a"], ["Table: a\n- x: Number\n"], []⟩ (by rfl)

/-- C7: the object submitted for a row holds exactly the row's non-absent
attributes — an absent attribute is omitted, never stored as null; e.g.
the row `{col_a: 5, col_b: <absent>}` is submitted as `{col_a: 5}`. -/
theorem claim_C7_absent_attributes_omitted :
    (∀ (df : DataFrame) (i : Nat) (p : String × Value),
      p ∈ rowObject df i ↔ p ∈ seriesRow df i ∧ p.2.isAbsent = false) ∧
    rowObject ⟨[("col_a", [Value.num 5]), ("col_b", [Value.absent])]⟩ 0
      = [("col_a", Value.num 5)] := by
  refine ⟨?_, rfl⟩
  intro df i p
  unfold rowObject
  rw [List.mem_filter]
  constructor
  · rintro ⟨h1, h2⟩
    exact ⟨h1, by simpa using h2⟩
  · rintro ⟨h1, h2⟩
    exact ⟨h1, by simp [h2]⟩

/-- C8: a column whose sanitized label is the reserved identifier `id` is
renamed to `id_field`: its schema property is named `id_field` and the
rename map sends the original label to `id_field`. -/
theorem claim_C8_reserved_id_renamed (df : DataFrame) (col : String)
    (h1 : col ∈ df.cols.map Prod.fst)
    (h2 : clean_property_name col = "id") :
    finalColName col = "id_field" ∧
    "id_field" ∈ (buildProps df).map Property.name ∧
    List.lookup col (rename_map df) = some "id_field" := by
  have hid : finalColName col = "id_field" := by
    unfold finalColName
    rw [h2]
    rw [if_pos (by decide : "id" ∈ RESERVED_NAMES)]
    decide
  refine ⟨hid, ?_, ?_⟩
  · apply List.mem_map.mpr
    rcases List.mem_map.mp h1 with ⟨c, hc, hcol⟩
    refine ⟨⟨finalColName c.1, inferDataType c.2⟩, List.mem_map_of_mem _ hc, ?_⟩
    show finalColName c.1 = "id_field"
    rw [show c.1 = col from hcol, hid]
  · rw [lookup_rename_map h1, hid]

theorem claim_C8_witness :
    finalColName "ID" = "id_field" ∧
    "id_field" ∈ (buildProps dfID).map Property.name ∧
    List.lookup "ID" (rename_map dfID) = some "id_field" :=
  claim_C8_reserved_id_renamed dfID "ID" (by decide) (by decide)

/-- C9: session creation is idempotent — a second `ensure_session` call on
the state left by the first returns that state unchanged (the same
underlying session object, whatever collections/prompt the second call
carries), and the first call always leaves a session in place. -/
theorem claim_C9_session_idempotent (cur : Option QueryAgentSession)
    (cols cols2 : List String) (p p2 : String) :
    ensure_session (ensure_session cur cols p) cols2 p2
      = ensure_session cur cols p ∧
    (ensure_session cur cols p).isSome = true := by
  cases cur with
  | none => exact ⟨rfl, rfl⟩
  | some a => exact ⟨rfl, rfl⟩

/-- C10: a file that cannot be parsed stops before any store operation —
its step touches no store state, and the batch's outcome is exactly the
outcome on the remaining files with the same store, plus one failure entry;
the file contributes nothing to the collection list or schema text. -/
theorem claim_C10_parse_error_touches_nothing (s : Store) (f : UploadedFile)
    (rest : List UploadedFile) (h : f.parsed = none) :
    processFile s f = .failed ("Failed to read file: " ++ f.name) ∧
    process_uploaded_files s (f :: rest)
      = (process_uploaded_files s rest).map (fun r =>
          ⟨r.store, r.collections_created, r.table_schemas,
            (f.name, "Failed to read file: " ++ f.name) :: r.failures⟩) := by
  have hstep : processFile s f = .failed ("Failed to read file: " ++ f.name) := by
    simp [processFile, h]
  exact ⟨hstep, process_cons_failed hstep⟩

theorem claim_C10_witness :
    processFile staleStore fileBUnreadable
      = .failed ("Failed to read file: " ++ fileBUnreadable.name) ∧
    process_uploaded_files staleStore (fileBUnreadable :: [fileA])
      = (process_uploaded_files staleStore [fileA]).map (fun r =>
          ⟨r.store, r.collections_created, r.table_schemas,
            (fileBUnreadable.name,
              "Failed to read file: " ++ fileBUnreadable.name) :: r.failures⟩) :=
  claim_C10_parse_error_touches_nothing staleStore fileBUnreadable [fileA] (by rfl)

end QueryAgent
